import Mathlib

set_option maxRecDepth 8000

/-
Verification of the intersection traffic-queue simulator (streamlit_app).

The source is a single script whose core is four functions: mulberry32 (a
seeded 32-bit pseudo-random generator), poisson (Knuth multiplicative
sampler), randInt (uniform integer in a closed interval) and simulate
(the per-second queue update loop plus summary statistics).

Modelling conventions, chosen to stay faithful to the source:
- All 32-bit bit operations of mulberry32 are carried out on natural
  numbers reduced modulo 2^32 where the source relies on 32-bit
  truncation (Math.imul and the unsigned shift by 0).
- The generator state is the current seed word; every primitive takes a
  state and returns the drawn value together with the successor state,
  making the single shared stream of the source explicit.
- Math.exp is not exactly representable in rational arithmetic, so the
  sampler is parametrised by a function mexp modelling it; every theorem
  quantifies over mexp, adding only the facts about exp it needs (for
  example that exp of a non-negative argument is at least 1, which holds
  for the floating-point exp as well).
- The do-while loop of poisson terminates only with probability one, so
  the model carries an explicit fuel bound; all theorems hold for every
  fuel value, or assume the one draw of fuel they need.
- queue counts are integers (not naturals), so that non-negativity of the
  queues is a property to be proved, not a typing artefact.
- The literals 1.1 and 0.9 of the trend comparison are modelled by the
  exact rationals 11/10 and 9/10.
- randInt's product rng() * (max - min + 1) and its Math.floor are
  modelled in exact rational arithmetic.  This is bit-exact for the
  bounds 3 and 1 that simulate passes (those double products are exact),
  but not for arbitrarily large bounds, where IEEE-754 rounding of the
  double product can change the floor; properties of randInt at such
  bounds are outside this model.
-/

/-- 2^32, the modulus of all 32-bit arithmetic in the random generator. -/
def UINT32 : ℕ := 4294967296

/-- Math.imul: 32-bit truncating multiplication on bit patterns. -/
def imul (a b : ℕ) : ℕ := (a * b) % UINT32

/-- The output word of one mulberry32 call, computed from the updated seed
word t: the three mixing lines of the source body. -/
def scramble (t : ℕ) : ℕ :=
  let t1 := imul (t ^^^ (t >>> 15)) (t ||| 1)
  let t2 := t1 ^^^ ((t1 + imul (t1 ^^^ (t1 >>> 7)) (t1 ||| 61)) % UINT32)
  (t2 ^^^ (t2 >>> 14)) % UINT32

/-- One call of the closure returned by mulberry32(seed): the seed is
advanced by 0x6d2b79f5 (modulo 2^32) and the scrambled word, divided by
4294967296, is returned together with the new state. -/
def mulberry32Next (s : ℕ) : ℚ × ℕ :=
  let s1 := (s + 0x6d2b79f5) % UINT32
  ((scramble s1 : ℚ) / 4294967296, s1)

/-- The generator state after n calls, starting from the given seed. -/
def rngState (seed : ℕ) : ℕ → ℕ
  | 0 => seed
  | n + 1 => (mulberry32Next (rngState seed n)).2

/-- The value produced by the n-th call (counting from 0) of the
generator seeded with seed. -/
def rngValue (seed n : ℕ) : ℚ := (mulberry32Next (rngState seed n)).1

lemma UINT32_pos : 0 < UINT32 := by norm_num [UINT32]

lemma scramble_lt (t : ℕ) : scramble t < UINT32 :=
  Nat.mod_lt _ UINT32_pos

lemma mulberry32Next_fst (s : ℕ) :
    (mulberry32Next s).1 =
      (scramble ((s + 0x6d2b79f5) % UINT32) : ℚ) / 4294967296 := rfl

lemma mulberry32Next_nonneg (s : ℕ) : 0 ≤ (mulberry32Next s).1 := by
  rw [mulberry32Next_fst]
  positivity

lemma mulberry32Next_le (s : ℕ) :
    (mulberry32Next s).1 ≤ 4294967295 / 4294967296 := by
  rw [mulberry32Next_fst]
  have h2 : (scramble ((s + 0x6d2b79f5) % UINT32) : ℚ) ≤ 4294967295 := by
    have h3 : scramble ((s + 0x6d2b79f5) % UINT32) ≤ 4294967295 := by
      have h := scramble_lt ((s + 0x6d2b79f5) % UINT32)
      simp only [UINT32] at h ⊢
      omega
    exact_mod_cast h3
  gcongr

lemma mulberry32Next_lt_one (s : ℕ) : (mulberry32Next s).1 < 1 :=
  lt_of_le_of_lt (mulberry32Next_le s) (by norm_num)

/-- The do-while loop of the source poisson: the body multiplies the
running product p by a fresh draw and increments the counter k, and the
loop continues while p exceeds the threshold L.  The source loop
terminates only with probability one, so the model carries a fuel bound;
when fuel runs out the current k - 1 is returned. -/
def poissonLoop (L : ℚ) : ℕ → ℚ → ℕ → ℕ → ℕ × ℕ
  | 0, _, k, s => (k - 1, s)
  | fuel + 1, p, k, s =>
    if L < p * (mulberry32Next s).1 then
      poissonLoop L fuel (p * (mulberry32Next s).1) (k + 1) (mulberry32Next s).2
    else (k + 1 - 1, (mulberry32Next s).2)

/-- The source poisson(lambda, rng): L = Math.exp(-lambda) (modelled by
the parameter mexp), then the do-while loop starting from p = 1, k = 0. -/
def poisson (mexp : ℚ → ℚ) (fuel : ℕ) (lam : ℚ) (s : ℕ) : ℕ × ℕ :=
  poissonLoop (mexp (-lam)) fuel 1 0 s

/-- The source randInt(min, max, rng):
Math.floor(rng() * (max - min + 1)) + min. -/
def randInt (mn mx : ℤ) (s : ℕ) : ℤ × ℕ :=
  (⌊(mulberry32Next s).1 * ((mx - mn + 1 : ℤ) : ℚ)⌋ + mn, (mulberry32Next s).2)

/-- The configuration read by simulate: green durations of the major
(national, N) and minor (prefectural, P) road, total duration, the two
arrival rates and the seed.  The source hardcodes the service capacities
3 and 1 inside simulate; they are not fields here. -/
structure SimConfig where
  greenN : ℕ
  greenP : ℕ
  duration : ℕ
  lambdaN : ℚ
  lambdaP : ℚ
  seed : ℕ
  deriving DecidableEq

/-- The mutable per-run state of the loop: the two queue counts and the
generator state. -/
structure SimState where
  queueN : ℤ
  queueP : ℤ
  rng : ℕ
  deriving DecidableEq

/-- One timeline record.  The source stores a descriptive string in the
green field that is a function of the Boolean isGreenN alone; the model
stores that Boolean. -/
structure Sample where
  t : ℕ
  queueN : ℤ
  queueP : ℤ
  green : Bool
  arrivalsN : ℕ
  arrivalsP : ℕ
  deriving DecidableEq

/-- The three trend labels of the source (increasing / congestion-prone,
decreasing, flat). -/
inductive Trend where
  | incr
  | decr
  | flat
  deriving DecidableEq

/-- The trend ternary of the source: end > avg * 1.1, else end < avg * 0.9,
else flat (the literals modelled by the exact rationals 11/10 and 9/10). -/
def trendOf (e : ℤ) (a : ℚ) : Trend :=
  if a * (11 / 10) < (e : ℚ) then Trend.incr
  else if (e : ℚ) < a * (9 / 10) then Trend.decr
  else Trend.flat

/-- The body of the per-second loop of simulate, for second t: draw
arrivals for road N then road P from the shared stream and add them to
the queues, decide the phase by t % (greenN + greenP) < greenN, make one
service draw randInt(0, 3) or randInt(0, 1) for the green road, subtract
served = min(queue, draw) from the green road's queue, and record the
sample with the post-update queues.  Note on the zero-cycle case: the
source computes t % 0 as NaN and NaN < greenN as false; here t % 0 = t
and greenN must then be 0, so t < 0 is false as well — both models take
the else branch every second. -/
def simStep (mexp : ℚ → ℚ) (fuel : ℕ) (cfg : SimConfig) (t : ℕ)
    (st : SimState) : Sample × SimState :=
  let rN := poisson mexp fuel cfg.lambdaN st.rng
  let rP := poisson mexp fuel cfg.lambdaP rN.2
  let qN := st.queueN + (rN.1 : ℤ)
  let qP := st.queueP + (rP.1 : ℤ)
  if t % (cfg.greenN + cfg.greenP) < cfg.greenN then
    let c := randInt 0 3 rP.2
    (⟨t, qN - min qN c.1, qP, true, rN.1, rP.1⟩, ⟨qN - min qN c.1, qP, c.2⟩)
  else
    let c := randInt 0 1 rP.2
    (⟨t, qN, qP - min qP c.1, false, rN.1, rP.1⟩, ⟨qN, qP - min qP c.1, c.2⟩)

/-- The for-loop of simulate: n iterations starting at second t0, each
producing one sample and threading the state. -/
def simLoop (mexp : ℚ → ℚ) (fuel : ℕ) (cfg : SimConfig) :
    ℕ → ℕ → SimState → List Sample
  | _, 0, _ => []
  | t, n + 1, st =>
    (simStep mexp fuel cfg t st).1 ::
      simLoop mexp fuel cfg (t + 1) n (simStep mexp fuel cfg t st).2

/-- The run's output: the timeline and the summary values of the source
return object. -/
structure SimResult where
  timeline : List Sample
  endN : ℤ
  endP : ℤ
  avgN : ℚ
  avgP : ℚ
  trendN : Trend
  trendP : Trend
  deriving DecidableEq

/-- simulate: the loop for t = 0 .. duration inclusive from empty queues
and the seeded stream, then the summary: end values from the last sample,
mid = floor(length / 2), second-half averages by slice(mid) and reduce,
and the two trend ternaries.  The source indexes timeline[length - 1],
defined because the timeline is never empty; the model uses getLastD. -/
def simulate (mexp : ℚ → ℚ) (fuel : ℕ) (cfg : SimConfig) : SimResult :=
  let timeline := simLoop mexp fuel cfg 0 (cfg.duration + 1) ⟨0, 0, cfg.seed⟩
  let endN := (timeline.getLastD ⟨0, 0, 0, false, 0, 0⟩).queueN
  let endP := (timeline.getLastD ⟨0, 0, 0, false, 0, 0⟩).queueP
  let mid := timeline.length / 2
  let avgN := ((((timeline.drop mid).foldl (fun a d => a + d.queueN) 0 : ℤ) : ℚ)) /
    ((timeline.length - mid : ℕ) : ℚ)
  let avgP := ((((timeline.drop mid).foldl (fun a d => a + d.queueP) 0 : ℤ) : ℚ)) /
    ((timeline.length - mid : ℕ) : ℚ)
  ⟨timeline, endN, endP, avgN, avgP, trendOf endN avgN, trendOf endP avgP⟩

/-- Spec-side phrasing of one update step, written from the words of
claim C1: arrivals for the major road are drawn first and then arrivals
for the minor road, each added to its road's queue; the phase is
major-green exactly when t mod (greenN + greenP) < greenN; exactly one
service draw uniform over 0..capacity of the green road is made; served =
min(green queue, draw) is subtracted from the green road's queue and the
red road's queue is unchanged by service; the sample records t, the
post-update queues, the phase and the two arrival counts. -/
def specStep (mexp : ℚ → ℚ) (fuel : ℕ) (cfg : SimConfig) (t : ℕ)
    (st : SimState) : Sample × SimState :=
  let rN := poisson mexp fuel cfg.lambdaN st.rng
  let rP := poisson mexp fuel cfg.lambdaP rN.2
  let qN := st.queueN + (rN.1 : ℤ)
  let qP := st.queueP + (rP.1 : ℤ)
  let draw :=
    if t % (cfg.greenN + cfg.greenP) < cfg.greenN then randInt 0 3 rP.2
    else randInt 0 1 rP.2
  let servedN :=
    if t % (cfg.greenN + cfg.greenP) < cfg.greenN then min qN draw.1 else 0
  let servedP :=
    if t % (cfg.greenN + cfg.greenP) < cfg.greenN then 0 else min qP draw.1
  (⟨t, qN - servedN, qP - servedP,
      decide (t % (cfg.greenN + cfg.greenP) < cfg.greenN), rN.1, rP.1⟩,
   ⟨qN - servedN, qP - servedP, draw.2⟩)

/-- Spec-side state before second t: the initial state from the seed,
then one claim-C1 step per elapsed second. -/
def specState (mexp : ℚ → ℚ) (fuel : ℕ) (cfg : SimConfig) : ℕ → SimState
  | 0 => ⟨0, 0, cfg.seed⟩
  | t + 1 => (specStep mexp fuel cfg t (specState mexp fuel cfg t)).2

/-- The state reached from st by k consecutive simStep updates starting
at second t0 (helper for relating list positions to states). -/
def stepIter (mexp : ℚ → ℚ) (fuel : ℕ) (cfg : SimConfig) :
    ℕ → ℕ → SimState → SimState
  | _, 0, st => st
  | t0, k + 1, st =>
    stepIter mexp fuel cfg (t0 + 1) k (simStep mexp fuel cfg t0 st).2

/-- Spec-side end value of the major road, per claim C5: the queue value
of the last sample. -/
def specEndN (tl : List Sample) : ℤ := (tl.getLastD ⟨0, 0, 0, false, 0, 0⟩).queueN

/-- Spec-side end value of the minor road, per claim C5. -/
def specEndP (tl : List Sample) : ℤ := (tl.getLastD ⟨0, 0, 0, false, 0, 0⟩).queueP

/-- Spec-side second-half average of the major road, per claim C5:
mid = floor(length / 2), the arithmetic mean of the queue values over the
samples from index mid through the last. -/
def specAvgN (tl : List Sample) : ℚ :=
  ((((tl.drop (tl.length / 2)).map Sample.queueN).sum : ℤ) : ℚ) /
    ((tl.length - tl.length / 2 : ℕ) : ℚ)

/-- Spec-side second-half average of the minor road, per claim C5. -/
def specAvgP (tl : List Sample) : ℚ :=
  ((((tl.drop (tl.length / 2)).map Sample.queueP).sum : ℤ) : ℚ) /
    ((tl.length - tl.length / 2 : ℕ) : ℚ)

/-- Configuration as the spec describes it for claim C9: the simulate
configuration extended with the two per-second service capacities as
caller-supplied fields. -/
structure CapsConfig where
  cfg : SimConfig
  capacityN : ℤ
  capacityP : ℤ
  deriving DecidableEq

/-- The claim-C9 reading of the loop body: identical to simStep except
that the green road's service draw is bounded by the configured capacity
field instead of a constant. -/
def stepCaps (mexp : ℚ → ℚ) (fuel : ℕ) (cc : CapsConfig) (t : ℕ)
    (st : SimState) : Sample × SimState :=
  let rN := poisson mexp fuel cc.cfg.lambdaN st.rng
  let rP := poisson mexp fuel cc.cfg.lambdaP rN.2
  let qN := st.queueN + (rN.1 : ℤ)
  let qP := st.queueP + (rP.1 : ℤ)
  if t % (cc.cfg.greenN + cc.cfg.greenP) < cc.cfg.greenN then
    let c := randInt 0 cc.capacityN rP.2
    (⟨t, qN - min qN c.1, qP, true, rN.1, rP.1⟩, ⟨qN - min qN c.1, qP, c.2⟩)
  else
    let c := randInt 0 cc.capacityP rP.2
    (⟨t, qN, qP - min qP c.1, false, rN.1, rP.1⟩, ⟨qN, qP - min qP c.1, c.2⟩)

/-- The loop of the claim-C9 reading. -/
def loopCaps (mexp : ℚ → ℚ) (fuel : ℕ) (cc : CapsConfig) :
    ℕ → ℕ → SimState → List Sample
  | _, 0, _ => []
  | t, n + 1, st =>
    (stepCaps mexp fuel cc t st).1 ::
      loopCaps mexp fuel cc (t + 1) n (stepCaps mexp fuel cc t st).2

/-- simulate in the claim-C9 reading: capacities come from the
configuration; everything else is as in simulate. -/
def simulateCaps (mexp : ℚ → ℚ) (fuel : ℕ) (cc : CapsConfig) : SimResult :=
  let timeline := loopCaps mexp fuel cc 0 (cc.cfg.duration + 1) ⟨0, 0, cc.cfg.seed⟩
  let endN := (timeline.getLastD ⟨0, 0, 0, false, 0, 0⟩).queueN
  let endP := (timeline.getLastD ⟨0, 0, 0, false, 0, 0⟩).queueP
  let mid := timeline.length / 2
  let avgN := ((((timeline.drop mid).foldl (fun a d => a + d.queueN) 0 : ℤ) : ℚ)) /
    ((timeline.length - mid : ℕ) : ℚ)
  let avgP := ((((timeline.drop mid).foldl (fun a d => a + d.queueP) 0 : ℤ) : ℚ)) /
    ((timeline.length - mid : ℕ) : ℚ)
  ⟨timeline, endN, endP, avgN, avgP, trendOf endN avgN, trendOf endP avgP⟩

lemma simStep_fst_t (mexp : ℚ → ℚ) (fuel : ℕ) (cfg : SimConfig) (t : ℕ)
    (st : SimState) : ((simStep mexp fuel cfg t st).1).t = t := by
  by_cases h : t % (cfg.greenN + cfg.greenP) < cfg.greenN <;> simp [simStep, h]

lemma simStep_fst_queueN (mexp : ℚ → ℚ) (fuel : ℕ) (cfg : SimConfig) (t : ℕ)
    (st : SimState) :
    ((simStep mexp fuel cfg t st).1).queueN = ((simStep mexp fuel cfg t st).2).queueN := by
  by_cases h : t % (cfg.greenN + cfg.greenP) < cfg.greenN <;> simp [simStep, h]

lemma simStep_fst_queueP (mexp : ℚ → ℚ) (fuel : ℕ) (cfg : SimConfig) (t : ℕ)
    (st : SimState) :
    ((simStep mexp fuel cfg t st).1).queueP = ((simStep mexp fuel cfg t st).2).queueP := by
  by_cases h : t % (cfg.greenN + cfg.greenP) < cfg.greenN <;> simp [simStep, h]

lemma simStep_snd_nonneg (mexp : ℚ → ℚ) (fuel : ℕ) (cfg : SimConfig) (t : ℕ)
    (st : SimState) (hN : 0 ≤ st.queueN) (hP : 0 ≤ st.queueP) :
    0 ≤ ((simStep mexp fuel cfg t st).2).queueN ∧
      0 ≤ ((simStep mexp fuel cfg t st).2).queueP := by
  by_cases h : t % (cfg.greenN + cfg.greenP) < cfg.greenN <;>
    simp [simStep, h] <;> omega

lemma simLoop_length (mexp : ℚ → ℚ) (fuel : ℕ) (cfg : SimConfig) :
    ∀ (n t0 : ℕ) (st : SimState), (simLoop mexp fuel cfg t0 n st).length = n
  | 0, _, _ => rfl
  | n + 1, t0, st => by
    simp [simLoop, simLoop_length mexp fuel cfg n (t0 + 1)]

lemma stepIter_succ_back (mexp : ℚ → ℚ) (fuel : ℕ) (cfg : SimConfig) :
    ∀ (k t0 : ℕ) (st : SimState),
      stepIter mexp fuel cfg t0 (k + 1) st =
        (simStep mexp fuel cfg (t0 + k) (stepIter mexp fuel cfg t0 k st)).2
  | 0, t0, st => by simp [stepIter]
  | k + 1, t0, st => by
    have h := stepIter_succ_back mexp fuel cfg k (t0 + 1)
      (simStep mexp fuel cfg t0 st).2
    show stepIter mexp fuel cfg (t0 + 1) (k + 1) (simStep mexp fuel cfg t0 st).2 = _
    rw [h]
    have ht : t0 + 1 + k = t0 + (k + 1) := by omega
    rw [ht]
    rfl

lemma simLoop_getElem (mexp : ℚ → ℚ) (fuel : ℕ) (cfg : SimConfig) :
    ∀ (k n t0 : ℕ) (st : SimState), k < n →
      (simLoop mexp fuel cfg t0 n st)[k]? =
        some ((simStep mexp fuel cfg (t0 + k) (stepIter mexp fuel cfg t0 k st)).1)
  | k, 0, _, _, hk => absurd hk (Nat.not_lt_zero k)
  | 0, n + 1, t0, st, _ => by simp [simLoop, stepIter]
  | k + 1, n + 1, t0, st, hk => by
    have h := simLoop_getElem mexp fuel cfg k n (t0 + 1)
      (simStep mexp fuel cfg t0 st).2 (by omega)
    show (simLoop mexp fuel cfg t0 (n + 1) st)[k + 1]? = _
    simp only [simLoop, List.getElem?_cons_succ]
    rw [h]
    have ht : t0 + 1 + k = t0 + (k + 1) := by omega
    rw [ht]
    rfl

lemma simStep_eq_specStep (mexp : ℚ → ℚ) (fuel : ℕ) (cfg : SimConfig) (t : ℕ)
    (st : SimState) : simStep mexp fuel cfg t st = specStep mexp fuel cfg t st := by
  by_cases h : t % (cfg.greenN + cfg.greenP) < cfg.greenN <;>
    simp [simStep, specStep, h]

lemma stepIter_eq_specState (mexp : ℚ → ℚ) (fuel : ℕ) (cfg : SimConfig) :
    ∀ t : ℕ, stepIter mexp fuel cfg 0 t ⟨0, 0, cfg.seed⟩ = specState mexp fuel cfg t
  | 0 => rfl
  | t + 1 => by
    rw [stepIter_succ_back, stepIter_eq_specState mexp fuel cfg t]
    simp [specState, simStep_eq_specStep]

lemma simLoop_nonneg (mexp : ℚ → ℚ) (fuel : ℕ) (cfg : SimConfig) :
    ∀ (n t0 : ℕ) (st : SimState), 0 ≤ st.queueN → 0 ≤ st.queueP →
      ∀ d ∈ simLoop mexp fuel cfg t0 n st, 0 ≤ d.queueN ∧ 0 ≤ d.queueP
  | 0, t0, st, _, _, d, hd => by simp [simLoop] at hd
  | n + 1, t0, st, hN, hP, d, hd => by
    have hstep := simStep_snd_nonneg mexp fuel cfg t0 st hN hP
    simp only [simLoop, List.mem_cons] at hd
    rcases hd with h | h
    · subst h
      rw [simStep_fst_queueN, simStep_fst_queueP]
      exact hstep
    · exact simLoop_nonneg mexp fuel cfg n (t0 + 1) _ hstep.1 hstep.2 d h

lemma foldl_add_map (f : Sample → ℤ) :
    ∀ (l : List Sample) (a : ℤ),
      l.foldl (fun s d => s + f d) a = a + (l.map f).sum
  | [], a => by simp
  | d :: l, a => by
    simp only [List.foldl_cons, List.map_cons, List.sum_cons]
    rw [foldl_add_map f l]
    ring

lemma specAvgN_nonneg (tl : List Sample) (h : ∀ d ∈ tl, 0 ≤ d.queueN) :
    0 ≤ specAvgN tl := by
  unfold specAvgN
  apply div_nonneg _ (by positivity)
  have hsum : 0 ≤ ((tl.drop (tl.length / 2)).map Sample.queueN).sum := by
    apply List.sum_nonneg
    intro x hx
    simp only [List.mem_map] at hx
    obtain ⟨d, hd, rfl⟩ := hx
    exact h d (List.drop_subset _ _ hd)
  exact_mod_cast hsum

lemma specAvgP_nonneg (tl : List Sample) (h : ∀ d ∈ tl, 0 ≤ d.queueP) :
    0 ≤ specAvgP tl := by
  unfold specAvgP
  apply div_nonneg _ (by positivity)
  have hsum : 0 ≤ ((tl.drop (tl.length / 2)).map Sample.queueP).sum := by
    apply List.sum_nonneg
    intro x hx
    simp only [List.mem_map] at hx
    obtain ⟨d, hd, rfl⟩ := hx
    exact h d (List.drop_subset _ _ hd)
  exact_mod_cast hsum

lemma avg_foldl_eq_N (tl : List Sample) :
    (((tl.drop (tl.length / 2)).foldl (fun a d => a + d.queueN) 0 : ℤ) : ℚ) /
      ((tl.length - tl.length / 2 : ℕ) : ℚ) = specAvgN tl := by
  rw [foldl_add_map Sample.queueN]
  simp [specAvgN]

lemma avg_foldl_eq_P (tl : List Sample) :
    (((tl.drop (tl.length / 2)).foldl (fun a d => a + d.queueP) 0 : ℤ) : ℚ) /
      ((tl.length - tl.length / 2 : ℕ) : ℚ) = specAvgP tl := by
  rw [foldl_add_map Sample.queueP]
  simp [specAvgP]

lemma trendOf_flat_of_eq (e : ℤ) (a : ℚ) (ha : 0 ≤ a) (h : (e : ℚ) = a) :
    trendOf e a = Trend.flat := by
  unfold trendOf
  rw [h, if_neg (by linarith), if_neg (by linarith)]

lemma trendOf_pos_zero (e : ℤ) (h : 0 < e) : trendOf e 0 = Trend.incr := by
  have hc : (0 : ℚ) * (11 / 10) < (e : ℤ) := by
    rw [zero_mul]; exact_mod_cast h
  unfold trendOf
  rw [if_pos hc]

lemma trendOf_zero_zero : trendOf 0 0 = Trend.flat := by
  norm_num [trendOf]

/-- C1: for every configuration with positive cycle length and every
second t from 0 through duration, the t-th recorded sample of the run is
exactly what one update step in the claimed fixed order produces from the
state before second t: major-road arrivals drawn first, then minor-road
arrivals, each added to its queue; the phase major-green exactly when
t mod (greenN + greenP) < greenN; exactly one service draw for the green
road only, with served = min(queue, draw) subtracted from the green
road's queue and the red road's queue unchanged by service; the sample
carrying t, the post-update queues, the phase and the arrival counts. -/
theorem c1_step_order (mexp : ℚ → ℚ) (fuel : ℕ) (cfg : SimConfig)
    (hcycle : 0 < cfg.greenN + cfg.greenP) (t : ℕ) (ht : t ≤ cfg.duration) :
    (simulate mexp fuel cfg).timeline[t]? =
      some ((specStep mexp fuel cfg t (specState mexp fuel cfg t)).1) := by
  have h1 : (simulate mexp fuel cfg).timeline =
      simLoop mexp fuel cfg 0 (cfg.duration + 1) ⟨0, 0, cfg.seed⟩ := rfl
  rw [h1, simLoop_getElem mexp fuel cfg t (cfg.duration + 1) 0 _ (by omega)]
  rw [stepIter_eq_specState, simStep_eq_specStep]
  simp

/-- Witness for C1 at a concrete configuration and second. -/
theorem c1_step_order_check :
    (simulate (fun _ => (1 : ℚ)) 1 ⟨2, 1, 2, 0, 0, 42⟩).timeline[1]? =
      some ((specStep (fun _ => (1 : ℚ)) 1 ⟨2, 1, 2, 0, 0, 42⟩ 1
        (specState (fun _ => (1 : ℚ)) 1 ⟨2, 1, 2, 0, 0, 42⟩ 1)).1) :=
  c1_step_order (fun _ => (1 : ℚ)) 1 ⟨2, 1, 2, 0, 0, 42⟩ (by decide) 1 (by decide)

/-- C2: the run is a deterministic function of the configuration alone —
two invocations of simulate on equal configurations (same exp model and
fuel) return identical results, timeline and all summary values included;
in the model no state is shared between runs, since the generator state
is created inside simulate from the seed and threaded explicitly. -/
theorem c2_deterministic (mexp : ℚ → ℚ) (fuel : ℕ) (c₁ c₂ : SimConfig)
    (h : c₁ = c₂) : simulate mexp fuel c₁ = simulate mexp fuel c₂ := by
  rw [h]

/-- Witness for C2 at a concrete configuration. -/
theorem c2_deterministic_check :
    simulate (fun _ => (1 : ℚ)) 1 ⟨2, 1, 2, 0, 0, 42⟩ =
      simulate (fun _ => (1 : ℚ)) 1 ⟨2, 1, 2, 0, 0, 42⟩ :=
  c2_deterministic (fun _ => (1 : ℚ)) 1 _ _ rfl

/-- C3 counterexample: at lambda = 0 — where Math.exp(-lambda) is exactly
1, modelled by the constant-1 exp function — starting from stream state
42 the call returns 0 but the stream state moves: the do-while body of
the source always runs at least once, so one draw is consumed,
contradicting the claim that the stream position is unchanged. -/
theorem c3_zero_draws_cex :
    (poisson (fun _ => (1 : ℚ)) 1 0 42).1 = 0 ∧
      (poisson (fun _ => (1 : ℚ)) 1 0 42).2 ≠ 42 := by
  with_unfolding_all decide

/-- C3 amended: for lambda ≤ 0 (so that the threshold exp(-lambda) is at
least 1), poisson returns 0 deterministically and consumes exactly one
draw — the returned stream state is the successor of the input state.
Totality (no error, no infinite loop) is structural in the model: one
unit of fuel suffices. -/
theorem c3_nonpos_lambda (mexp : ℚ → ℚ) (fuel : ℕ) (lam : ℚ) (s : ℕ)
    (hlam : lam ≤ 0) (hexp : 1 ≤ mexp (-lam)) (hfuel : 1 ≤ fuel) :
    poisson mexp fuel lam s = (0, (mulberry32Next s).2) := by
  obtain ⟨f, rfl⟩ : ∃ f, fuel = f + 1 := ⟨fuel - 1, by omega⟩
  show poissonLoop (mexp (-lam)) (f + 1) 1 0 s = _
  have hu : ¬ mexp (-lam) < (mulberry32Next s).1 :=
    not_lt.2 (le_trans (le_of_lt (mulberry32Next_lt_one s)) hexp)
  simp [poissonLoop, hu]

/-- Witness for the amended C3 at lambda = 0, seed state 7. -/
theorem c3_nonpos_lambda_check :
    poisson (fun _ => (1 : ℚ)) 1 0 7 = (0, (mulberry32Next 7).2) :=
  c3_nonpos_lambda (fun _ => (1 : ℚ)) 1 0 7 le_rfl le_rfl le_rfl

/-- C5: the trend labels of a completed run are computed from the
timeline alone by the claimed formulas: for each road the label equals
the ternary applied to end (the last sample's queue value) and avg (the
arithmetic mean of that road's queue values from index
floor(length / 2) through the last sample); moreover end = avg yields
flat, and in the degenerate case avg = 0 a positive end yields increasing
while end = 0 yields flat. -/
theorem c5_trend (mexp : ℚ → ℚ) (fuel : ℕ) (cfg : SimConfig) :
    ((simulate mexp fuel cfg).trendN =
        trendOf (specEndN (simulate mexp fuel cfg).timeline)
          (specAvgN (simulate mexp fuel cfg).timeline) ∧
      (simulate mexp fuel cfg).trendP =
        trendOf (specEndP (simulate mexp fuel cfg).timeline)
          (specAvgP (simulate mexp fuel cfg).timeline)) ∧
    (((simulate mexp fuel cfg).endN : ℚ) = (simulate mexp fuel cfg).avgN →
      (simulate mexp fuel cfg).trendN = Trend.flat) ∧
    (((simulate mexp fuel cfg).endP : ℚ) = (simulate mexp fuel cfg).avgP →
      (simulate mexp fuel cfg).trendP = Trend.flat) ∧
    ((simulate mexp fuel cfg).avgN = 0 →
      (0 < (simulate mexp fuel cfg).endN →
        (simulate mexp fuel cfg).trendN = Trend.incr) ∧
      ((simulate mexp fuel cfg).endN = 0 →
        (simulate mexp fuel cfg).trendN = Trend.flat)) ∧
    ((simulate mexp fuel cfg).avgP = 0 →
      (0 < (simulate mexp fuel cfg).endP →
        (simulate mexp fuel cfg).trendP = Trend.incr) ∧
      ((simulate mexp fuel cfg).endP = 0 →
        (simulate mexp fuel cfg).trendP = Trend.flat)) := by
  have hnn := simLoop_nonneg mexp fuel cfg (cfg.duration + 1) 0
    ⟨0, 0, cfg.seed⟩ le_rfl le_rfl
  have havgN : (simulate mexp fuel cfg).avgN =
      specAvgN (simulate mexp fuel cfg).timeline :=
    avg_foldl_eq_N (simulate mexp fuel cfg).timeline
  have havgP : (simulate mexp fuel cfg).avgP =
      specAvgP (simulate mexp fuel cfg).timeline :=
    avg_foldl_eq_P (simulate mexp fuel cfg).timeline
  have htrN : (simulate mexp fuel cfg).trendN =
      trendOf (simulate mexp fuel cfg).endN (simulate mexp fuel cfg).avgN := rfl
  have htrP : (simulate mexp fuel cfg).trendP =
      trendOf (simulate mexp fuel cfg).endP (simulate mexp fuel cfg).avgP := rfl
  have hanN : 0 ≤ (simulate mexp fuel cfg).avgN := by
    rw [havgN]
    exact specAvgN_nonneg _ (fun d hd => (hnn d hd).1)
  have hanP : 0 ≤ (simulate mexp fuel cfg).avgP := by
    rw [havgP]
    exact specAvgP_nonneg _ (fun d hd => (hnn d hd).2)
  refine ⟨⟨?_, ?_⟩, ?_, ?_, ?_, ?_⟩
  · rw [htrN, havgN]
    exact rfl
  · rw [htrP, havgP]
    exact rfl
  · intro h
    rw [htrN]
    exact trendOf_flat_of_eq _ _ hanN h
  · intro h
    rw [htrP]
    exact trendOf_flat_of_eq _ _ hanP h
  · intro h0
    constructor
    · intro he
      rw [htrN, h0]
      exact trendOf_pos_zero _ he
    · intro he
      rw [htrN, h0, he]
      exact trendOf_zero_zero
  · intro h0
    constructor
    · intro he
      rw [htrP, h0]
      exact trendOf_pos_zero _ he
    · intro he
      rw [htrP, h0, he]
      exact trendOf_zero_zero

/-- Witness for C5 at a concrete configuration. -/
theorem c5_trend_check :
    ((simulate (fun _ => (1 : ℚ)) 1 ⟨2, 1, 2, 0, 0, 42⟩).trendN =
        trendOf (specEndN (simulate (fun _ => (1 : ℚ)) 1 ⟨2, 1, 2, 0, 0, 42⟩).timeline)
          (specAvgN (simulate (fun _ => (1 : ℚ)) 1 ⟨2, 1, 2, 0, 0, 42⟩).timeline) ∧
      (simulate (fun _ => (1 : ℚ)) 1 ⟨2, 1, 2, 0, 0, 42⟩).trendP =
        trendOf (specEndP (simulate (fun _ => (1 : ℚ)) 1 ⟨2, 1, 2, 0, 0, 42⟩).timeline)
          (specAvgP (simulate (fun _ => (1 : ℚ)) 1 ⟨2, 1, 2, 0, 0, 42⟩).timeline)) ∧
    (((simulate (fun _ => (1 : ℚ)) 1 ⟨2, 1, 2, 0, 0, 42⟩).endN : ℚ) =
        (simulate (fun _ => (1 : ℚ)) 1 ⟨2, 1, 2, 0, 0, 42⟩).avgN →
      (simulate (fun _ => (1 : ℚ)) 1 ⟨2, 1, 2, 0, 0, 42⟩).trendN = Trend.flat) ∧
    (((simulate (fun _ => (1 : ℚ)) 1 ⟨2, 1, 2, 0, 0, 42⟩).endP : ℚ) =
        (simulate (fun _ => (1 : ℚ)) 1 ⟨2, 1, 2, 0, 0, 42⟩).avgP →
      (simulate (fun _ => (1 : ℚ)) 1 ⟨2, 1, 2, 0, 0, 42⟩).trendP = Trend.flat) ∧
    ((simulate (fun _ => (1 : ℚ)) 1 ⟨2, 1, 2, 0, 0, 42⟩).avgN = 0 →
      (0 < (simulate (fun _ => (1 : ℚ)) 1 ⟨2, 1, 2, 0, 0, 42⟩).endN →
        (simulate (fun _ => (1 : ℚ)) 1 ⟨2, 1, 2, 0, 0, 42⟩).trendN = Trend.incr) ∧
      ((simulate (fun _ => (1 : ℚ)) 1 ⟨2, 1, 2, 0, 0, 42⟩).endN = 0 →
        (simulate (fun _ => (1 : ℚ)) 1 ⟨2, 1, 2, 0, 0, 42⟩).trendN = Trend.flat)) ∧
    ((simulate (fun _ => (1 : ℚ)) 1 ⟨2, 1, 2, 0, 0, 42⟩).avgP = 0 →
      (0 < (simulate (fun _ => (1 : ℚ)) 1 ⟨2, 1, 2, 0, 0, 42⟩).endP →
        (simulate (fun _ => (1 : ℚ)) 1 ⟨2, 1, 2, 0, 0, 42⟩).trendP = Trend.incr) ∧
      ((simulate (fun _ => (1 : ℚ)) 1 ⟨2, 1, 2, 0, 0, 42⟩).endP = 0 →
        (simulate (fun _ => (1 : ℚ)) 1 ⟨2, 1, 2, 0, 0, 42⟩).trendP = Trend.flat)) :=
  c5_trend (fun _ => (1 : ℚ)) 1 ⟨2, 1, 2, 0, 0, 42⟩

/-- C6: for every configuration the run records exactly duration + 1
samples, and the k-th sample carries t = k for k = 0 .. duration; in
particular duration = 0 yields exactly one sample. -/
theorem c6_timeline_length (mexp : ℚ → ℚ) (fuel : ℕ) (cfg : SimConfig) :
    (simulate mexp fuel cfg).timeline.length = cfg.duration + 1 ∧
      ∀ k : ℕ, k < cfg.duration + 1 →
        ((simulate mexp fuel cfg).timeline[k]?).map Sample.t = some k := by
  constructor
  · exact simLoop_length mexp fuel cfg (cfg.duration + 1) 0 _
  · intro k hk
    have h1 : (simulate mexp fuel cfg).timeline =
        simLoop mexp fuel cfg 0 (cfg.duration + 1) ⟨0, 0, cfg.seed⟩ := rfl
    rw [h1, simLoop_getElem mexp fuel cfg k (cfg.duration + 1) 0 _ hk]
    simp [simStep_fst_t]

/-- Witness for C6 at a concrete configuration (duration 3). -/
theorem c6_timeline_length_check :
    (simulate (fun _ => (1 : ℚ)) 1 ⟨2, 1, 3, 0, 0, 5⟩).timeline.length = 3 + 1 ∧
      ∀ k : ℕ, k < 3 + 1 →
        ((simulate (fun _ => (1 : ℚ)) 1 ⟨2, 1, 3, 0, 0, 5⟩).timeline[k]?).map
          Sample.t = some k :=
  c6_timeline_length (fun _ => (1 : ℚ)) 1 ⟨2, 1, 3, 0, 0, 5⟩

/-- C7: for every configuration with positive cycle length, every
recorded sample has non-negative queue values on both roads: arrivals are
non-negative and the number served is clamped to the minimum of the
current queue and the capacity draw. -/
theorem c7_queues_nonneg (mexp : ℚ → ℚ) (fuel : ℕ) (cfg : SimConfig)
    (hcycle : 0 < cfg.greenN + cfg.greenP) :
    ∀ d ∈ (simulate mexp fuel cfg).timeline, 0 ≤ d.queueN ∧ 0 ≤ d.queueP := by
  intro d hd
  exact simLoop_nonneg mexp fuel cfg (cfg.duration + 1) 0 ⟨0, 0, cfg.seed⟩
    le_rfl le_rfl d hd

/-- Witness for C7 at a concrete configuration and concrete sample (the
first recorded sample of that run). -/
theorem c7_queues_nonneg_check :
    0 ≤ (⟨0, 0, 0, true, 0, 0⟩ : Sample).queueN ∧
      0 ≤ (⟨0, 0, 0, true, 0, 0⟩ : Sample).queueP :=
  c7_queues_nonneg (fun _ => (1 : ℚ)) 1 ⟨2, 1, 2, 0, 0, 42⟩ (by decide)
    ⟨0, 0, 0, true, 0, 0⟩ (by with_unfolding_all decide)

lemma stepCaps_31 (mexp : ℚ → ℚ) (fuel : ℕ) (cfg : SimConfig) (t : ℕ)
    (st : SimState) :
    stepCaps mexp fuel ⟨cfg, 3, 1⟩ t st = simStep mexp fuel cfg t st := rfl

lemma loopCaps_31 (mexp : ℚ → ℚ) (fuel : ℕ) (cfg : SimConfig) :
    ∀ (n t0 : ℕ) (st : SimState),
      loopCaps mexp fuel ⟨cfg, 3, 1⟩ t0 n st = simLoop mexp fuel cfg t0 n st
  | 0, _, _ => rfl
  | n + 1, t0, st => by
    simp only [loopCaps, simLoop]
    rw [stepCaps_31]
    rw [loopCaps_31 mexp fuel cfg n (t0 + 1) (simStep mexp fuel cfg t0 st).2]

/-- C9 counterexample: with capacities configured as (2, 1) instead of
the source constants (3, 1), the run on a concrete configuration (greens
1 and 1, duration 2, both rates 1, seed 42, exp modelled as the constant
1/2, fuel 10) produces a different timeline — the source's major-road
service draw is bounded by the hardcoded 3, not by any caller-supplied
capacity, so capacities are not configurable fields. -/
theorem c9_configurable_cex :
    simulateCaps (fun _ => (1 : ℚ) / 2) 10 ⟨⟨1, 1, 2, 1, 1, 42⟩, 2, 1⟩ ≠
      simulate (fun _ => (1 : ℚ) / 2) 10 ⟨1, 1, 2, 1, 1, 42⟩ := by
  with_unfolding_all decide

/-- C9 amended: the per-second service capacities are the hardcoded
constants 3 (major road) and 1 (minor road) inside simulate, not
configuration fields: for every configuration, exp model and fuel, the
capacity-configurable reading of the spec instantiated at exactly (3, 1)
coincides with the source's simulate. -/
theorem c9_caps_hardcoded (mexp : ℚ → ℚ) (fuel : ℕ) (cfg : SimConfig) :
    simulateCaps mexp fuel ⟨cfg, 3, 1⟩ = simulate mexp fuel cfg := by
  simp only [simulateCaps, simulate]
  rw [loopCaps_31]

/-- C10: the n-th value produced by the generator is m / 2^32 for an
integer 0 ≤ m < 2^32 (all intermediate arithmetic reduced modulo 2^32),
hence every uniform draw lies in [0, 1) strictly below 1 — which is what
keeps the service draw within its bound and makes the running product of
the poisson loop decrease. -/
theorem c10_unit_interval (seed n : ℕ) :
    ∃ m : ℕ, m < 4294967296 ∧
      rngValue seed n = (m : ℚ) / 4294967296 ∧
      0 ≤ rngValue seed n ∧ rngValue seed n < 1 := by
  refine ⟨scramble ((rngState seed n + 0x6d2b79f5) % UINT32), ?_, rfl,
    mulberry32Next_nonneg _, mulberry32Next_lt_one _⟩
  have h := scramble_lt ((rngState seed n + 0x6d2b79f5) % UINT32)
  simpa [UINT32] using h
